import Mathlib

set_option maxRecDepth 8000

namespace Engine

/-!
Shallow embedding of the trial-generation engine of the repository
(file engine.js) together with the session-configuration demo.

Modelling conventions:
* JavaScript numbers are modelled as rationals; all arithmetic used by the
  engine (addition, subtraction, multiplication, Math.floor, Math.round,
  Math.min, Math.max) is exact on the inputs it receives, and the rational
  model has no NaN value, so a numeric field can never be NaN here.
* The ambient random source (successive Math.random() results) is modelled
  as a stream of rationals consumed one draw per call, threaded explicitly
  through every function that draws from it, in source call order.
* Task identities (the strings mov and or of the source) are modelled as a
  two-constructor inductive type, following the data model of the TrialSpec;
  a null task2 is an Option none.
* Absent object fields (undefined in JavaScript) are modelled as Option
  none where a claim depends on absence: the direction quadruple of a
  TrialSpec and the direction fields of the output record.
-/

/-- Stream of pending pseudorandom draws: position n is the value returned
by the n-th future call to the random source. -/
def Rng : Type := ℕ → ℚ

/-- The next pending random draw. -/
def Rng.head (r : Rng) : ℚ := r 0

/-- The stream after one draw has been consumed. -/
def Rng.tail (r : Rng) : Rng := fun n => r (n + 1)

/-- A stream is valid when every draw lies in the interval [0, 1), as the
draws of the real random source do. -/
def ValidR (r : Rng) : Prop := ∀ n, 0 ≤ r n ∧ r n < 1

/-- The all-zero random stream, used as a concrete random source. -/
def rZero : Rng := fun _ => 0

/-- Task identity: the source strings mov and or. -/
inductive Task where
  | mov
  | or
deriving DecidableEq

/-- Function switchTask of engine.js: mov becomes or, anything else mov. -/
def switchTask (task : Task) : Task :=
  match task with
  | .mov => .or
  | .or => .mov

/-- String rendering of a task, as the source strings. -/
def taskName : Task → String
  | .mov => "mov"
  | .or => "or"

/-- Declarative distribution spec consumed by the sampler: a type tag, a
fixed/fallback value and an optional parameter list (a missing params field
is none). -/
structure DistributionSpec where
  type : String
  value : ℚ
  params : Option (List ℚ)
deriving DecidableEq

/-- Function sampleFromDistribution of engine.js. Returns the sampled value
together with the advanced random stream, or an error for an unknown type
tag. A missing or too-short parameter list falls back to the value field
without consuming a draw (the source only emits a console warning there). -/
def sampleFromDistribution (config : DistributionSpec) (r : Rng) :
    Except String (ℚ × Rng) :=
  if config.type = "fixed" then
    .ok (config.value, r)
  else if config.type = "uniform" then
    match config.params with
    | none => .ok (config.value, r)
    | some ps =>
      if ps.length < 2 then .ok (config.value, r)
      else
        let mn := min (ps.getD 0 0) (ps.getD 1 0)
        let mx := max (ps.getD 0 0) (ps.getD 1 0)
        .ok (mn + r.head * (mx - mn), r.tail)
  else if config.type = "choice" then
    match config.params with
    | none => .ok (config.value, r)
    | some ps =>
      if ps.length = 0 then .ok (config.value, r)
      else .ok (ps.getD (⌊r.head * (ps.length : ℚ)⌋).toNat 0, r.tail)
  else
    .error "sampleFromDistribution: unknown type"

/-- Body of the Random branch of generateTaskSequence: a Markov chain that
switches from the previous task with probability switchRate/100, consuming
one draw per generated element. -/
def randomLoop (switchRate : ℚ) : Task → Rng → ℕ → List Task × Rng
  | _, r, 0 => ([], r)
  | prev, r, k + 1 =>
    let t := if r.head < switchRate / 100 then switchTask prev else prev
    let res := randomLoop switchRate t r.tail k
    (t :: res.1, res.2)

/-- Body of the AABB branch of generateTaskSequence: element at position i
switches from its predecessor exactly when i is even; no draw is consumed. -/
def aabbLoop : Task → ℕ → ℕ → List Task
  | _, _, 0 => []
  | prev, i, k + 1 =>
    let t := if i % 2 = 0 then switchTask prev else prev
    t :: aabbLoop t (i + 1) k

/-- Function generateTaskSequence of engine.js. The sequence always begins
with the start task (drawn by a fair coin when the start task is null), and
the loop then appends one element per index from 1 up to numTrials - 1. -/
def generateTaskSequence (numTrials : ℕ) (sequenceType : String)
    (switchRate : ℚ) (startTask : Option Task) (r : Rng) :
    Except String (List Task × Rng) :=
  let fr : Task × Rng :=
    match startTask with
    | some t => (t, r)
    | none => ((if r.head < 1 / 2 then Task.mov else Task.or), r.tail)
  let firstTask := fr.1
  let r := fr.2
  if sequenceType = "Random" then
    let res := randomLoop switchRate firstTask r (numTrials - 1)
    .ok (firstTask :: res.1, res.2)
  else if sequenceType = "AABB" then
    .ok (firstTask :: aabbLoop firstTask 1 (numTrials - 1), r)
  else
    .error "Unknown sequenceType"

/-- Function classifyTransitions of engine.js: index 0 is First, later
indices are Repeat when equal to the predecessor and Switch otherwise. -/
def classifyTransitions (taskSequence : List Task) : List String :=
  taskSequence.enum.map fun p =>
    if p.1 = 0 then "First"
    else if taskSequence.get? (p.1 - 1) = some p.2 then "Repeat" else "Switch"

/-- Math.round of JavaScript: rounds half toward positive infinity. -/
def jsRound (q : ℚ) : ℤ := ⌊q + 1 / 2⌋

/-- Assembly loop of generateCongruencySequence: every condition except the
last contributes round(numTrials * proportion) copies (a negative or NaN
count contributes none, as the source loop body never runs), and the last
condition contributes numTrials minus the running assigned total. A missing
proportion entry makes the source count NaN: nothing is emitted for that
condition and the assigned accumulator becomes NaN, so every later count
that reads it (the last condition in particular) is NaN and emits nothing
either. NaN is modelled by Option: a none accumulator is NaN, a none
proportion lookup is an undefined entry. -/
def assembleLoop (numTrials : ℤ) :
    List String → List ℚ → Option ℤ → List String
  | [], _, _ => []
  | c :: cs, props, assigned =>
    if cs.isEmpty then
      match assigned with
      | some a => List.replicate (numTrials - a).toNat c
      | none => []
    else
      match props.head? with
      | some p =>
        let count := jsRound ((numTrials : ℚ) * p)
        List.replicate count.toNat c ++
          assembleLoop numTrials cs props.tail
            (match assigned with
             | some a => some (a + count)
             | none => none)
      | none => assembleLoop numTrials cs props.tail none

/-- Decidable side condition under which the assembly loop emits exactly
numTrials - assigned labels: the condition list is nonempty, every
non-last condition has a proportion entry whose rounded count is
nonnegative, and the final assigned total stays at most numTrials. -/
def assembleOK (numTrials : ℤ) : List String → List ℚ → ℤ → Bool
  | [], _, _ => false
  | _ :: cs, props, assigned =>
    if cs.isEmpty then
      decide (assigned ≤ numTrials)
    else
      match props.head? with
      | none => false
      | some p =>
        let count := jsRound ((numTrials : ℚ) * p)
        if 0 ≤ count then
          assembleOK numTrials cs props.tail (assigned + count)
        else false

/-- Destructuring swap of two list positions, as the source swap statement;
out-of-range positions never arise for a valid random stream. -/
def listSwap {α : Type} [Inhabited α] (l : List α) (i j : ℕ) : List α :=
  (l.set i (l.getD j default)).set j (l.getD i default)

/-- Fisher-Yates loop: iterates the swap from position i down to 1,
consuming one draw per iteration to pick a partner in [0, i]. -/
def fyLoop {α : Type} [Inhabited α] : List α → ℕ → Rng → List α × Rng
  | l, 0, r => (l, r)
  | l, k + 1, r =>
    let j := (⌊r.head * ((k + 2 : ℕ) : ℚ)⌋).toNat
    fyLoop (listSwap l (k + 1) j) k r.tail

/-- Function generateCongruencySequence of engine.js: assemble the exact
per-condition counts, then shuffle with a Fisher-Yates pass. -/
def generateCongruencySequence (numTrials : ℕ) (conditions : List String)
    (proportions : List ℚ) (r : Rng) : List String × Rng :=
  let sequence := assembleLoop (numTrials : ℤ) conditions proportions (some 0)
  fyLoop sequence (sequence.length - 1) r

/-- Quadruple of per-channel task and distractor values, the shape shared by
the coherence and direction records of a spec. -/
structure Quad (α : Type) where
  ch1_task : α
  ch1_distractor : α
  ch2_task : α
  ch2_distractor : α
deriving DecidableEq

/-- Function assignDirections of engine.js. The task and rso arguments are
accepted but never read by the source body; the congruency label is only
compared against the three handled labels, every other label (univalent
included) falls through to a zero distractor. Returns the directions with
the advanced stream. -/
def assignDirections (task : Task) (congruency : String) (paradigm : String)
    (rso : String) (r : Rng) : Quad ℚ × Rng :=
  if paradigm = "dual-task" then
    let ch1Dir : ℚ := if r.head < 1 / 2 then 0 else 180
    let r1 := r.tail
    let ch2Dir : ℚ := if r1.head < 1 / 2 then 0 else 180
    ({ ch1_task := ch1Dir, ch1_distractor := 0,
       ch2_task := ch2Dir, ch2_distractor := 0 }, r1.tail)
  else
    let primaryDir : ℚ := if r.head < 1 / 2 then 0 else 180
    let r1 := r.tail
    if congruency = "congruent" then
      ({ ch1_task := primaryDir, ch1_distractor := primaryDir,
         ch2_task := 0, ch2_distractor := 0 }, r1)
    else if congruency = "incongruent" then
      ({ ch1_task := primaryDir,
         ch1_distractor := if primaryDir = 0 then 180 else 0,
         ch2_task := 0, ch2_distractor := 0 }, r1)
    else if congruency = "neutral" then
      let d : ℚ := if r1.head < 1 / 2 then 90 else 270
      ({ ch1_task := primaryDir, ch1_distractor := d,
         ch2_task := 0, ch2_distractor := 0 }, r1.tail)
    else
      ({ ch1_task := primaryDir, ch1_distractor := 0,
         ch2_task := 0, ch2_distractor := 0 }, r1)

/-- Abstract per-trial spec consumed by the parameter builder. Direction
entries are optional so that an absent field of the source dir object can be
expressed; all other inputs are plain numbers per the data model. -/
structure TrialSpec where
  task1 : Task
  task2 : Option Task
  csi : ℚ
  dur_ch1 : ℚ
  dur_ch2 : ℚ
  soa : ℚ
  responseWindow : ℚ
  coherence : Quad ℚ
  dir : Quad (Option ℚ)
deriving DecidableEq

/-- Result record of buildCoherenceParams. -/
structure CoherenceParams where
  coh_mov_1 : ℚ
  coh_or_1 : ℚ
  coh_mov_2 : ℚ
  coh_or_2 : ℚ
deriving DecidableEq

/-- Function buildCoherenceParams of engine.js: routes the task and
distractor coherences of each channel onto the movement and orientation
pathways according to which task owns the channel; a null task2 zeroes both
channel-2 coherences. -/
def buildCoherenceParams (spec : TrialSpec) : CoherenceParams :=
  let ch1 : ℚ × ℚ :=
    match spec.task1 with
    | .mov => (spec.coherence.ch1_task, spec.coherence.ch1_distractor)
    | .or => (spec.coherence.ch1_distractor, spec.coherence.ch1_task)
  let ch2 : ℚ × ℚ :=
    match spec.task2 with
    | some .mov => (spec.coherence.ch2_task, spec.coherence.ch2_distractor)
    | some .or => (spec.coherence.ch2_distractor, spec.coherence.ch2_task)
    | none => (0, 0)
  { coh_mov_1 := ch1.1, coh_or_1 := ch1.2, coh_mov_2 := ch2.1, coh_or_2 := ch2.2 }

/-- Result record of buildDirectionParams; entries stay optional because the
source copies possibly-absent dir fields verbatim. -/
structure DirectionParams where
  dir_mov_1 : Option ℚ
  dir_or_1 : Option ℚ
  dir_mov_2 : Option ℚ
  dir_or_2 : Option ℚ
deriving DecidableEq

/-- Function buildDirectionParams of engine.js: the same routing as the
coherence builder, applied to the direction quadruple; a null task2 writes
the number 0 into both channel-2 direction fields. -/
def buildDirectionParams (spec : TrialSpec) : DirectionParams :=
  let ch1 : Option ℚ × Option ℚ :=
    match spec.task1 with
    | .mov => (spec.dir.ch1_task, spec.dir.ch1_distractor)
    | .or => (spec.dir.ch1_distractor, spec.dir.ch1_task)
  let ch2 : Option ℚ × Option ℚ :=
    match spec.task2 with
    | some .mov => (spec.dir.ch2_task, spec.dir.ch2_distractor)
    | some .or => (spec.dir.ch2_distractor, spec.dir.ch2_task)
    | none => (some 0, some 0)
  { dir_mov_1 := ch1.1, dir_or_1 := ch1.2, dir_mov_2 := ch2.1, dir_or_2 := ch2.2 }

/-- Result record of buildTimingParams. -/
structure TimingParams where
  start_1 : ℚ
  dur_1 : ℚ
  start_go_1 : ℚ
  dur_go_1 : ℚ
  start_mov_1 : ℚ
  dur_mov_1 : ℚ
  start_or_1 : ℚ
  dur_or_1 : ℚ
  start_2 : ℚ
  dur_2 : ℚ
  start_go_2 : ℚ
  dur_go_2 : ℚ
  start_mov_2 : ℚ
  dur_mov_2 : ℚ
  start_or_2 : ℚ
  dur_or_2 : ℚ
deriving DecidableEq

/-- Function buildTimingParams of engine.js: channel-1 cue, go signal and
tentative pathway windows in absolute time; with a second task, the
channel-2 cue and go signal are absolute at csi + soa while the channel-2
pathway starts carry the relative offset soa - dur_ch1; with a null task2
every channel-2 field is zero. -/
def buildTimingParams (spec : TrialSpec) : TimingParams :=
  let base :=
    { start_1 := 0, dur_1 := spec.csi + spec.dur_ch1,
      start_go_1 := spec.csi, dur_go_1 := spec.responseWindow,
      start_mov_1 := spec.csi, dur_mov_1 := spec.dur_ch1,
      start_or_1 := spec.csi, dur_or_1 := spec.dur_ch1,
      start_2 := 0, dur_2 := 0, start_go_2 := 0, dur_go_2 := 0,
      start_mov_2 := 0, dur_mov_2 := 0, start_or_2 := 0, dur_or_2 := 0 :
      TimingParams }
  match spec.task2 with
  | none => base
  | some _ =>
    let ch2RelativeOffset := spec.soa - spec.dur_ch1
    { base with
      start_2 := spec.csi + spec.soa, dur_2 := spec.dur_ch2,
      start_go_2 := spec.csi + spec.soa, dur_go_2 := spec.responseWindow,
      start_mov_2 := ch2RelativeOffset, dur_mov_2 := spec.dur_ch2,
      start_or_2 := ch2RelativeOffset, dur_or_2 := spec.dur_ch2 }

/-- Flat output record of the parameter builder: the 26 fields handed to
the presentation engine. Direction fields are optional because the source
copies possibly-absent spec fields into them unchecked. -/
structure SEParams where
  task_1 : Task
  task_2 : Option Task
  start_1 : ℚ
  dur_1 : ℚ
  start_go_1 : ℚ
  dur_go_1 : ℚ
  start_mov_1 : ℚ
  dur_mov_1 : ℚ
  start_or_1 : ℚ
  dur_or_1 : ℚ
  start_2 : ℚ
  dur_2 : ℚ
  start_go_2 : ℚ
  dur_go_2 : ℚ
  start_mov_2 : ℚ
  dur_mov_2 : ℚ
  start_or_2 : ℚ
  dur_or_2 : ℚ
  coh_mov_1 : ℚ
  coh_or_1 : ℚ
  coh_mov_2 : ℚ
  coh_or_2 : ℚ
  dir_mov_1 : Option ℚ
  dir_or_1 : Option ℚ
  dir_mov_2 : Option ℚ
  dir_or_2 : Option ℚ
deriving DecidableEq

/-- Silencing step of buildTrialParams: each of the four source if
statements zeroes the start and dur of one pathway when its coherence is
zero. The four statements test only coherence fields, which none of them
writes, and write pairwise disjoint fields, so they are rendered as one
simultaneous update. -/
def silencePathways (p : SEParams) : SEParams :=
  { p with
    start_mov_1 := if p.coh_mov_1 = 0 then 0 else p.start_mov_1,
    dur_mov_1 := if p.coh_mov_1 = 0 then 0 else p.dur_mov_1,
    start_or_1 := if p.coh_or_1 = 0 then 0 else p.start_or_1,
    dur_or_1 := if p.coh_or_1 = 0 then 0 else p.dur_or_1,
    start_mov_2 := if p.coh_mov_2 = 0 then 0 else p.start_mov_2,
    dur_mov_2 := if p.coh_mov_2 = 0 then 0 else p.dur_mov_2,
    start_or_2 := if p.coh_or_2 = 0 then 0 else p.start_or_2,
    dur_or_2 := if p.coh_or_2 = 0 then 0 else p.dur_or_2 }

/-- Offset recomputation step of buildTrialParams: with a second task, each
channel-2 pathway that still has positive duration gets its start replaced
by desired absolute start minus the post-silencing end of the channel-1
pathway of the same dimension. The two source if statements read only
channel-1 fields and durations, which neither writes, so they are rendered
as one simultaneous update. -/
def recomputeCh2Offsets (spec : TrialSpec) (p : SEParams) : SEParams :=
  match spec.task2 with
  | none => p
  | some _ =>
    let mov1End := p.start_mov_1 + p.dur_mov_1
    let or1End := p.start_or_1 + p.dur_or_1
    let desiredCh2Start := spec.csi + spec.soa
    { p with
      start_mov_2 :=
        if 0 < p.dur_mov_2 then desiredCh2Start - mov1End else p.start_mov_2,
      start_or_2 :=
        if 0 < p.dur_or_2 then desiredCh2Start - or1End else p.start_or_2 }

/-- Assembly of the flat params object of buildTrialParams: the two task
fields followed by the spread of the three builder results. -/
def assembleParams (spec : TrialSpec) : SEParams :=
  let t := buildTimingParams spec
  let c := buildCoherenceParams spec
  let d := buildDirectionParams spec
  { task_1 := spec.task1, task_2 := spec.task2,
    start_1 := t.start_1, dur_1 := t.dur_1,
    start_go_1 := t.start_go_1, dur_go_1 := t.dur_go_1,
    start_mov_1 := t.start_mov_1, dur_mov_1 := t.dur_mov_1,
    start_or_1 := t.start_or_1, dur_or_1 := t.dur_or_1,
    start_2 := t.start_2, dur_2 := t.dur_2,
    start_go_2 := t.start_go_2, dur_go_2 := t.dur_go_2,
    start_mov_2 := t.start_mov_2, dur_mov_2 := t.dur_mov_2,
    start_or_2 := t.start_or_2, dur_or_2 := t.dur_or_2,
    coh_mov_1 := c.coh_mov_1, coh_or_1 := c.coh_or_1,
    coh_mov_2 := c.coh_mov_2, coh_or_2 := c.coh_or_2,
    dir_mov_1 := d.dir_mov_1, dir_or_1 := d.dir_or_1,
    dir_mov_2 := d.dir_mov_2, dir_or_2 := d.dir_or_2 }

/-- Function buildTrialParams of engine.js: assemble the routed timing,
coherence and direction fields into the flat record, silence zero-coherence
pathways, then recompute the channel-2 relative offsets from the
post-silencing channel-1 end times. -/
def buildTrialParams (spec : TrialSpec) : SEParams :=
  recomputeCh2Offsets spec (silencePathways (assembleParams spec))

/-- Value of one field of the output record, as a JavaScript value: a
number, a string, null, or undefined. -/
inductive JsVal where
  | num (q : ℚ)
  | str (s : String)
  | null
  | undef
deriving DecidableEq

/-- Enumeration of the 26 fields of the output record with their
JavaScript values, in the assembly order of the source object. -/
def SEParams.fieldList (p : SEParams) : List (String × JsVal) :=
  [("task_1", .str (taskName p.task_1)),
   ("task_2", match p.task_2 with | none => .null | some t => .str (taskName t)),
   ("start_1", .num p.start_1), ("dur_1", .num p.dur_1),
   ("start_go_1", .num p.start_go_1), ("dur_go_1", .num p.dur_go_1),
   ("start_mov_1", .num p.start_mov_1), ("dur_mov_1", .num p.dur_mov_1),
   ("start_or_1", .num p.start_or_1), ("dur_or_1", .num p.dur_or_1),
   ("start_2", .num p.start_2), ("dur_2", .num p.dur_2),
   ("start_go_2", .num p.start_go_2), ("dur_go_2", .num p.dur_go_2),
   ("start_mov_2", .num p.start_mov_2), ("dur_mov_2", .num p.dur_mov_2),
   ("start_or_2", .num p.start_or_2), ("dur_or_2", .num p.dur_or_2),
   ("coh_mov_1", .num p.coh_mov_1), ("coh_or_1", .num p.coh_or_1),
   ("coh_mov_2", .num p.coh_mov_2), ("coh_or_2", .num p.coh_or_2),
   ("dir_mov_1", match p.dir_mov_1 with | none => .undef | some q => .num q),
   ("dir_or_1", match p.dir_or_1 with | none => .undef | some q => .num q),
   ("dir_mov_2", match p.dir_mov_2 with | none => .undef | some q => .num q),
   ("dir_or_2", match p.dir_or_2 with | none => .undef | some q => .num q)]

end Engine

namespace Draft

/-- Argument object of the draft buildTrialParams variant that follows the
main engine in the repository; the two direction arguments are optional so
that absence can be expressed. The coherence object of the draft is not
needed by any claim and is omitted. -/
structure BuildArgs where
  task1 : Engine.Task
  task2 : Option Engine.Task
  stimulusDuration : ℚ
  csi : ℚ
  soa : ℚ
  responseWindow : ℚ
  dir_1 : Option ℚ
  dir_2 : Option ℚ
deriving DecidableEq

/-- Partial record built by the draft variant. -/
structure DraftParams where
  task_1 : Engine.Task
  start_1 : ℚ
  dur_1 : ℚ
deriving DecidableEq

/-- Draft buildTrialParams variant of the repository: unlike the main
builder it checks the first direction argument and throws when it is
absent (a loose equality with undefined, covering null as well). -/
def buildTrialParams (a : BuildArgs) : Except String DraftParams :=
  match a.dir_1 with
  | none => .error "buildTrialParams: dir_1 is required"
  | some _ =>
    .ok { task_1 := a.task1, start_1 := 0, dur_1 := a.csi + a.stimulusDuration }

end Draft

namespace Engine

/-- Congruency section of a block configuration. -/
structure CongruencySpec where
  conditions : List String
  proportions : List ℚ

/-- Block-level configuration consumed by generateBlockTrials. Optional
task fields model null entries of the source configurations. -/
structure BlockConfig where
  blockId : String
  blockType : String
  paradigm : String
  task1 : Option Task
  task2 : Option Task
  sequenceType : String
  switchRate : ℚ
  startTask : Option Task
  csi : ℚ
  stimulusDuration : ℚ
  responseWindow : ℚ
  rso : String
  coherence : Quad ℚ
  congruency : CongruencySpec
  iti : DistributionSpec
  soa : DistributionSpec

/-- Per-trial metadata record for analysis. -/
structure TrialMeta where
  trialNumber : ℕ
  blockId : String
  blockType : String
  paradigm : String
  task : Task
  task2 : Option Task
  transitionType : String
  congruency : String
  previousCongruency : Option String
  iti : ℚ
  soa : Option ℚ
  primaryDirection : ℚ
  distractorDirection : Option ℚ
  ch2Direction : Option ℚ

/-- One generated trial: the presentation parameters and the metadata. -/
structure Trial where
  seParams : SEParams
  meta : TrialMeta

/-- Per-trial assembly loop of generateBlockTrials: builds the trial at
index i and recurses with k remaining trials, threading the random stream
through the ITI sample, the SOA sample (dual-task only) and the direction
assignment, in source call order. Sequence lookups use a default for an
out-of-range index; within generateBlockTrials every lookup is in range. -/
def trialsLoop (cfg : BlockConfig) (taskSeq : List Task)
    (transitions congSeq : List String) :
    ℕ → ℕ → Rng → Except String (List Trial × Rng)
  | _, 0, r => .ok ([], r)
  | i, k + 1, r =>
    let isDual := cfg.paradigm = "dual-task"
    let task1 := taskSeq.getD i Task.mov
    let task2 := if isDual then some (switchTask task1) else none
    let congruency := congSeq.getD i ""
    let previousCongruency :=
      if 0 < i then some (congSeq.getD (i - 1) "") else none
    match sampleFromDistribution cfg.iti r with
    | .error e => .error e
    | .ok (iti, r1) =>
      match (if isDual then
          match sampleFromDistribution cfg.soa r1 with
          | .error e => Except.error e
          | .ok (v, rs) => Except.ok ((some v : Option ℚ), rs)
        else Except.ok ((none : Option ℚ), r1)) with
      | .error e => .error e
      | .ok (soaOpt, r2) =>
        let dres := assignDirections task1 congruency cfg.paradigm cfg.rso r2
        let dir := dres.1
        let r3 := dres.2
        let spec : TrialSpec :=
          { task1 := task1, task2 := task2, csi := cfg.csi,
            dur_ch1 := cfg.stimulusDuration,
            dur_ch2 := if isDual then cfg.stimulusDuration else 0,
            soa := soaOpt.getD 0,
            responseWindow := cfg.responseWindow,
            coherence := cfg.coherence,
            dir := { ch1_task := some dir.ch1_task,
                     ch1_distractor := some dir.ch1_distractor,
                     ch2_task := some dir.ch2_task,
                     ch2_distractor := some dir.ch2_distractor } }
        let seParams := buildTrialParams spec
        let meta : TrialMeta :=
          { trialNumber := i + 1, blockId := cfg.blockId,
            blockType := cfg.blockType, paradigm := cfg.paradigm,
            task := task1, task2 := task2,
            transitionType := transitions.getD i "",
            congruency := congruency,
            previousCongruency := previousCongruency,
            iti := iti, soa := soaOpt,
            primaryDirection := dir.ch1_task,
            distractorDirection :=
              if congruency = "univalent" then none
              else some dir.ch1_distractor,
            ch2Direction := if isDual then some dir.ch2_task else none }
        match trialsLoop cfg taskSeq transitions congSeq (i + 1) k r3 with
        | .error e => .error e
        | .ok (rest, r4) =>
          .ok ({ seParams := seParams, meta := meta } :: rest, r4)

/-- Function generateBlockTrials of engine.js: one task sequence for the
block (seeded by task1 for a dual-task block and by startTask otherwise),
transition labels, one congruency sequence, then the per-trial loop. -/
def generateBlockTrials (blockConfig : BlockConfig) (numTrials : ℕ)
    (r : Rng) : Except String (List Trial) :=
  let isDual := blockConfig.paradigm = "dual-task"
  match generateTaskSequence numTrials blockConfig.sequenceType
      blockConfig.switchRate
      (if isDual then blockConfig.task1 else blockConfig.startTask) r with
  | .error e => .error e
  | .ok (taskSequence, r1) =>
    let transitions := classifyTransitions taskSequence
    let cres := generateCongruencySequence numTrials
      blockConfig.congruency.conditions blockConfig.congruency.proportions r1
    match trialsLoop blockConfig taskSequence transitions cres.1
        0 numTrials cres.2 with
    | .error e => .error e
    | .ok (trials, _) => .ok trials

/-!
Helper lemmas shared by several verification theorems.
-/

theorem ValidR.tail {r : Rng} (h : ValidR r) : ValidR r.tail :=
  fun n => h (n + 1)

theorem validR_rZero : ValidR rZero :=
  fun _ => ⟨le_refl 0, by norm_num [rZero]⟩

theorem ValidR.head_nonneg {r : Rng} (h : ValidR r) : 0 ≤ r.head :=
  (h 0).1

theorem ValidR.head_lt_one {r : Rng} (h : ValidR r) : r.head < 1 :=
  (h 0).2

/-- The offset-recomputation step alone already guarantees the exact
absolute placement of every still-active channel-2 pathway. -/
theorem recompute_places_exactly (spec : TrialSpec) (p : SEParams)
    (h : spec.task2 ≠ none) :
    (0 < (recomputeCh2Offsets spec p).dur_mov_2 →
      (recomputeCh2Offsets spec p).start_mov_2 +
        ((recomputeCh2Offsets spec p).start_mov_1 +
          (recomputeCh2Offsets spec p).dur_mov_1) = spec.csi + spec.soa) ∧
    (0 < (recomputeCh2Offsets spec p).dur_or_2 →
      (recomputeCh2Offsets spec p).start_or_2 +
        ((recomputeCh2Offsets spec p).start_or_1 +
          (recomputeCh2Offsets spec p).dur_or_1) = spec.csi + spec.soa) := by
  cases hT : spec.task2 with
  | none => exact absurd hT h
  | some t2 =>
    constructor <;> intro hdur <;>
      simp only [recomputeCh2Offsets, hT] at hdur ⊢ <;>
      simp only [hdur, if_pos] <;> ring

/-- C1. For every TrialSpec with a non-null task2, each channel-2 stimulus
pathway that remains active after silencing (positive duration) has its
relative offset satisfy offset plus post-silencing channel-1 counterpart
end equals csi + soa exactly; the offset is whatever this difference is,
negative values included, with no clamping. -/
theorem c1_ch2_offset_exact (spec : TrialSpec) (h : spec.task2 ≠ none) :
    (0 < (buildTrialParams spec).dur_mov_2 →
      (buildTrialParams spec).start_mov_2 +
        ((buildTrialParams spec).start_mov_1 +
          (buildTrialParams spec).dur_mov_1) = spec.csi + spec.soa) ∧
    (0 < (buildTrialParams spec).dur_or_2 →
      (buildTrialParams spec).start_or_2 +
        ((buildTrialParams spec).start_or_1 +
          (buildTrialParams spec).dur_or_1) = spec.csi + spec.soa) := by
  unfold buildTrialParams
  exact recompute_places_exactly spec (silencePathways (assembleParams spec)) h

/-- Bivalent dual-task spec of the spec example: channel-1 counterpart
pathway active with duration 300 (ending at 500), csi 200, soa 100. -/
def specBivalent : TrialSpec :=
  { task1 := .mov, task2 := some .or, csi := 200, dur_ch1 := 300,
    dur_ch2 := 300, soa := 100, responseWindow := 2000,
    coherence := { ch1_task := 4/5, ch1_distractor := 4/5,
                   ch2_task := 3/5, ch2_distractor := 0 },
    dir := { ch1_task := some 180, ch1_distractor := some 180,
             ch2_task := some 0, ch2_distractor := some 0 } }

/-- Witness for C1 at the bivalent example: the recomputed offset is -200,
negative and unclamped, and offset plus counterpart end equals 300. -/
theorem c1_ch2_offset_exact_witness :
    (buildTrialParams specBivalent).start_or_2 = -200 ∧
    (buildTrialParams specBivalent).start_or_1 +
      (buildTrialParams specBivalent).dur_or_1 = 500 ∧
    (buildTrialParams specBivalent).start_or_2 +
      ((buildTrialParams specBivalent).start_or_1 +
        (buildTrialParams specBivalent).dur_or_1) = 300 := by
  have h := (c1_ch2_offset_exact specBivalent (by simp [specBivalent])).2
    (by simp [buildTrialParams, recomputeCh2Offsets, silencePathways,
      assembleParams, buildTimingParams, buildCoherenceParams,
      buildDirectionParams, specBivalent])
  norm_num [specBivalent] at h
  refine ⟨?_, ?_, h⟩ <;>
    (simp [buildTrialParams, recomputeCh2Offsets, silencePathways,
      assembleParams, buildTimingParams, buildCoherenceParams,
      buildDirectionParams, specBivalent]; norm_num)

/-- C2. In the record returned by buildTrialParams, every one of the four
stimulus pathways whose routed coherence is zero has start and dur both
zero; each pathway is silenced on its own coherence value alone. -/
theorem c2_zero_coherence_silenced (spec : TrialSpec) :
    ((buildTrialParams spec).coh_mov_1 = 0 →
      (buildTrialParams spec).start_mov_1 = 0 ∧
      (buildTrialParams spec).dur_mov_1 = 0) ∧
    ((buildTrialParams spec).coh_or_1 = 0 →
      (buildTrialParams spec).start_or_1 = 0 ∧
      (buildTrialParams spec).dur_or_1 = 0) ∧
    ((buildTrialParams spec).coh_mov_2 = 0 →
      (buildTrialParams spec).start_mov_2 = 0 ∧
      (buildTrialParams spec).dur_mov_2 = 0) ∧
    ((buildTrialParams spec).coh_or_2 = 0 →
      (buildTrialParams spec).start_or_2 = 0 ∧
      (buildTrialParams spec).dur_or_2 = 0) := by
  unfold buildTrialParams
  cases hT : spec.task2 with
  | none =>
    refine ⟨fun h => ?_, fun h => ?_, fun h => ?_, fun h => ?_⟩ <;>
      simp only [recomputeCh2Offsets, hT, silencePathways] at h ⊢ <;>
      simp [h]
  | some t2 =>
    refine ⟨fun h => ?_, fun h => ?_, fun h => ?_, fun h => ?_⟩ <;>
      simp only [recomputeCh2Offsets, hT, silencePathways] at h ⊢ <;>
      simp [h]

/-- Mixed spec exercising silencing: channel-1 distractor and both
channel-2 pathways have zero coherence while the primary stays active. -/
def specSilenced : TrialSpec :=
  { task1 := .mov, task2 := some .or, csi := 200, dur_ch1 := 300,
    dur_ch2 := 300, soa := 100, responseWindow := 2000,
    coherence := { ch1_task := 4/5, ch1_distractor := 0,
                   ch2_task := 3/5, ch2_distractor := 0 },
    dir := { ch1_task := some 180, ch1_distractor := some 0,
             ch2_task := some 0, ch2_distractor := some 0 } }

/-- Witness for C2: at a concrete dual-task spec the two zero-coherence
pathways have start and dur zero while the active pathways keep theirs. -/
theorem c2_zero_coherence_silenced_witness :
    (buildTrialParams specSilenced).coh_or_1 = 0 ∧
    (buildTrialParams specSilenced).start_or_1 = 0 ∧
    (buildTrialParams specSilenced).dur_or_1 = 0 ∧
    (buildTrialParams specSilenced).coh_mov_2 = 0 ∧
    (buildTrialParams specSilenced).start_mov_2 = 0 ∧
    (buildTrialParams specSilenced).dur_mov_2 = 0 ∧
    (buildTrialParams specSilenced).dur_mov_1 = 300 := by
  have hc1 : (buildTrialParams specSilenced).coh_or_1 = 0 := by
    simp [buildTrialParams, recomputeCh2Offsets, silencePathways,
      assembleParams, buildTimingParams, buildCoherenceParams,
      buildDirectionParams, specSilenced]
  have hc2 : (buildTrialParams specSilenced).coh_mov_2 = 0 := by
    simp [buildTrialParams, recomputeCh2Offsets, silencePathways,
      assembleParams, buildTimingParams, buildCoherenceParams,
      buildDirectionParams, specSilenced]
  have h2 := (c2_zero_coherence_silenced specSilenced).2.1 hc1
  have h3 := (c2_zero_coherence_silenced specSilenced).2.2.1 hc2
  refine ⟨hc1, h2.1, h2.2, hc2, h3.1, h3.2, ?_⟩
  simp [buildTrialParams, recomputeCh2Offsets, silencePathways,
    assembleParams, buildTimingParams, buildCoherenceParams,
    buildDirectionParams, specSilenced]

/-- The silencing and offset-recomputation steps never touch the four
direction fields, so the builder output carries the routed directions
verbatim. -/
theorem buildTrialParams_dir_fields (spec : TrialSpec) :
    (buildTrialParams spec).dir_mov_1 = (buildDirectionParams spec).dir_mov_1 ∧
    (buildTrialParams spec).dir_or_1 = (buildDirectionParams spec).dir_or_1 ∧
    (buildTrialParams spec).dir_mov_2 = (buildDirectionParams spec).dir_mov_2 ∧
    (buildTrialParams spec).dir_or_2 = (buildDirectionParams spec).dir_or_2 := by
  unfold buildTrialParams
  cases hT : spec.task2 <;>
    simp [recomputeCh2Offsets, silencePathways, assembleParams, hT]

/-- Single-task spec whose dir object is missing the channel-1 task
direction required by the movement-primary routing. -/
def specMissingDir : TrialSpec :=
  { task1 := .mov, task2 := none, csi := 200, dur_ch1 := 300,
    dur_ch2 := 0, soa := 0, responseWindow := 2000,
    coherence := { ch1_task := 1, ch1_distractor := 0,
                   ch2_task := 0, ch2_distractor := 0 },
    dir := { ch1_task := none, ch1_distractor := some 0,
             ch2_task := some 0, ch2_distractor := some 0 } }

/-- C3 counterexample. At a spec whose required channel-1 task direction is
absent, buildTrialParams does not fail: it returns a complete record whose
routed direction field is undefined, contradicting the claim that the
builder fails with a MissingRequiredField error rather than ever producing
a record with an undefined direction field. -/
theorem c3_counterexample :
    (buildTrialParams specMissingDir).dir_mov_1 = none ∧
    ("dir_mov_1", JsVal.undef) ∈ (buildTrialParams specMissingDir).fieldList := by
  have h := (buildTrialParams_dir_fields specMissingDir).1
  have h2 : (buildTrialParams specMissingDir).dir_mov_1 = none := by
    rw [h]; simp [buildDirectionParams, specMissingDir]
  exact ⟨h2, by simp [SEParams.fieldList, h2]⟩

/-- Arguments for the draft builder with the first direction absent. -/
def draftArgsMissing : Draft.BuildArgs :=
  { task1 := .mov, task2 := none, stimulusDuration := 300, csi := 200,
    soa := 0, responseWindow := 2000, dir_1 := none, dir_2 := none }

/-- C3 amended. The main buildTrialParams performs no direction validation:
for every spec whose required channel-1 task direction is absent under the
movement-primary routing, it returns normally and the routed direction
field of the output is undefined; only the draft variant of the repository
fails on a missing first direction. -/
theorem c3_missing_direction_not_fatal (spec : TrialSpec)
    (a : Draft.BuildArgs) (h1 : spec.task1 = .mov)
    (h2 : spec.dir.ch1_task = none) (ha : a.dir_1 = none) :
    (buildTrialParams spec).dir_mov_1 = none ∧
    Draft.buildTrialParams a = .error "buildTrialParams: dir_1 is required" := by
  constructor
  · rw [(buildTrialParams_dir_fields spec).1]
    simp [buildDirectionParams, h1, h2]
  · simp [Draft.buildTrialParams, ha]

/-- Witness for the amended C3 at concrete inputs. -/
theorem c3_missing_direction_not_fatal_witness :
    (buildTrialParams specMissingDir).dir_mov_1 = none ∧
    Draft.buildTrialParams draftArgsMissing =
      .error "buildTrialParams: dir_1 is required" :=
  c3_missing_direction_not_fatal specMissingDir draftArgsMissing rfl rfl rfl

/-- C4. For every TrialSpec (task1 and task2 range over the task domain of
the data model by construction) whose four direction inputs are all
present, the builder output enumerates exactly 26 fields and none of them
is undefined. NaN does not exist in the rational number model, so no
numeric field can be NaN. -/
theorem c4_output_shape (spec : TrialSpec)
    (h1 : spec.dir.ch1_task ≠ none) (h2 : spec.dir.ch1_distractor ≠ none)
    (h3 : spec.dir.ch2_task ≠ none) (h4 : spec.dir.ch2_distractor ≠ none) :
    (buildTrialParams spec).fieldList.length = 26 ∧
    ∀ f ∈ (buildTrialParams spec).fieldList, f.2 ≠ JsVal.undef := by
  have hd := buildTrialParams_dir_fields spec
  have e1 : (buildTrialParams spec).dir_mov_1 ≠ none := by
    rw [hd.1]; cases hT1 : spec.task1 <;>
      simp [buildDirectionParams, hT1, h1, h2]
  have e2 : (buildTrialParams spec).dir_or_1 ≠ none := by
    rw [hd.2.1]; cases hT1 : spec.task1 <;>
      simp [buildDirectionParams, hT1, h1, h2]
  have e3 : (buildTrialParams spec).dir_mov_2 ≠ none := by
    rw [hd.2.2.1]
    cases hT : spec.task2 with
    | none => simp [buildDirectionParams, hT]
    | some t => cases t <;> simp [buildDirectionParams, hT, h3, h4]
  have e4 : (buildTrialParams spec).dir_or_2 ≠ none := by
    rw [hd.2.2.2]
    cases hT : spec.task2 with
    | none => simp [buildDirectionParams, hT]
    | some t => cases t <;> simp [buildDirectionParams, hT, h3, h4]
  obtain ⟨v1, hv1⟩ := Option.ne_none_iff_exists'.mp e1
  obtain ⟨v2, hv2⟩ := Option.ne_none_iff_exists'.mp e2
  obtain ⟨v3, hv3⟩ := Option.ne_none_iff_exists'.mp e3
  obtain ⟨v4, hv4⟩ := Option.ne_none_iff_exists'.mp e4
  refine ⟨rfl, ?_⟩
  intro f hf
  simp only [SEParams.fieldList, List.mem_cons, List.not_mem_nil,
    or_false] at hf
  rcases hf with rfl|rfl|rfl|rfl|rfl|rfl|rfl|rfl|rfl|rfl|rfl|rfl|rfl|rfl|
    rfl|rfl|rfl|rfl|rfl|rfl|rfl|rfl|rfl|rfl|rfl|rfl <;>
    first
      | (simp [hv1, hv2, hv3, hv4]; done)
      | (split <;> simp)

/-- Witness for C4 at a concrete spec with all direction inputs present. -/
theorem c4_output_shape_witness :
    (buildTrialParams specSilenced).fieldList.length = 26 ∧
    ∀ f ∈ (buildTrialParams specSilenced).fieldList, f.2 ≠ JsVal.undef :=
  c4_output_shape specSilenced (by simp [specSilenced])
    (by simp [specSilenced]) (by simp [specSilenced]) (by simp [specSilenced])

/-- C10. In single-task mode, a congruency label other than congruent,
incongruent, neutral or univalent is silently accepted: assignDirections
returns normally, with the same result as for univalent, distractor zero,
primary in the horizontal pair, and zero channel-2 directions. The function
is total, so no such label can raise an error. -/
theorem c10_unknown_congruency_silent (task : Task)
    (congruency rso : String) (r : Rng)
    (h1 : congruency ≠ "congruent") (h2 : congruency ≠ "incongruent")
    (h3 : congruency ≠ "neutral") (h4 : congruency ≠ "univalent") :
    assignDirections task congruency "single-task" rso r =
      assignDirections task "univalent" "single-task" rso r ∧
    (assignDirections task congruency "single-task" rso r).1.ch1_distractor
      = 0 ∧
    ((assignDirections task congruency "single-task" rso r).1.ch1_task = 0 ∨
      (assignDirections task congruency "single-task" rso r).1.ch1_task
        = 180) ∧
    (assignDirections task congruency "single-task" rso r).1.ch2_task = 0 ∧
    (assignDirections task congruency "single-task" rso r).1.ch2_distractor
      = 0 := by
  have hq : ∀ s : String, s ≠ "congruent" → s ≠ "incongruent" →
      s ≠ "neutral" →
      assignDirections task s "single-task" rso r =
        ({ ch1_task := if r.head < 1 / 2 then 0 else 180,
           ch1_distractor := 0, ch2_task := 0, ch2_distractor := 0 },
          r.tail) := by
    intro s hs1 hs2 hs3
    simp [assignDirections, hs1, hs2, hs3]
  have hc := hq congruency h1 h2 h3
  have hu := hq "univalent" (by decide) (by decide) (by decide)
  refine ⟨hc.trans hu.symm, by rw [hc], ?_, by rw [hc], by rw [hc]⟩
  rw [hc]
  rcases lt_or_le r.head (1 / 2) with hrr | hrr
  · left; simp [hrr]; linarith
  · right; simp [not_lt.mpr hrr]; linarith

/-- Witness for C10 at a concrete unknown label and the zero stream. -/
theorem c10_unknown_congruency_silent_witness :
    assignDirections Task.mov "bogus" "single-task" "identical" rZero =
      assignDirections Task.mov "univalent" "single-task" "identical" rZero ∧
    (assignDirections Task.mov "bogus" "single-task" "identical"
      rZero).1.ch1_distractor = 0 ∧
    ((assignDirections Task.mov "bogus" "single-task" "identical"
      rZero).1.ch1_task = 0 ∨
      (assignDirections Task.mov "bogus" "single-task" "identical"
        rZero).1.ch1_task = 180) ∧
    (assignDirections Task.mov "bogus" "single-task" "identical"
      rZero).1.ch2_task = 0 ∧
    (assignDirections Task.mov "bogus" "single-task" "identical"
      rZero).1.ch2_distractor = 0 :=
  c10_unknown_congruency_silent Task.mov "bogus" "identical" rZero
    (by decide) (by decide) (by decide) (by decide)

/-- C8. The sampler fails exactly on an unknown type tag; a fixed spec
returns its value; a uniform spec with at least two parameters lands in the
closed interval bounded by the first two parameters in either order, while
missing or short parameters fall back to the value; a choice spec with
nonempty parameters returns one of them, while missing or empty parameters
fall back to the value. -/
theorem c8_sampler_behavior (config : DistributionSpec) (r : Rng)
    (hr : ValidR r) :
    ((∃ e, sampleFromDistribution config r = .error e) ↔
      (config.type ≠ "fixed" ∧ config.type ≠ "uniform" ∧
        config.type ≠ "choice")) ∧
    (config.type = "fixed" →
      sampleFromDistribution config r = .ok (config.value, r)) ∧
    (config.type = "uniform" → ∀ ps, config.params = some ps →
      2 ≤ ps.length →
      ∃ v r2, sampleFromDistribution config r = .ok (v, r2) ∧
        min (ps.getD 0 0) (ps.getD 1 0) ≤ v ∧
        v ≤ max (ps.getD 0 0) (ps.getD 1 0)) ∧
    (config.type = "uniform" →
      (config.params = none ∨
        ∀ ps, config.params = some ps → ps.length < 2) →
      sampleFromDistribution config r = .ok (config.value, r)) ∧
    (config.type = "choice" → ∀ ps, config.params = some ps → ps ≠ [] →
      ∃ v r2, sampleFromDistribution config r = .ok (v, r2) ∧ v ∈ ps) ∧
    (config.type = "choice" →
      (config.params = none ∨ config.params = some []) →
      sampleFromDistribution config r = .ok (config.value, r)) := by
  refine ⟨?_, ?_, ?_, ?_, ?_, ?_⟩
  · constructor
    · rintro ⟨e, he⟩
      by_cases t1 : config.type = "fixed"
      · simp [sampleFromDistribution, t1] at he
      · by_cases t2 : config.type = "uniform"
        · rcases hp : config.params with _ | ps <;>
            simp only [sampleFromDistribution, t1, t2, hp, if_false,
              if_true, if_neg, if_pos, reduceIte] at he
          · simp at he
          · by_cases hl : ps.length < 2 <;> simp [hl] at he
        · by_cases t3 : config.type = "choice"
          · rcases hp : config.params with _ | ps <;>
              simp only [sampleFromDistribution, t1, t2, t3, hp,
                reduceIte] at he
            · simp at he
            · by_cases hl : ps.length = 0 <;> simp [hl] at he
          · exact ⟨t1, t2, t3⟩
    · rintro ⟨t1, t2, t3⟩
      exact ⟨"sampleFromDistribution: unknown type",
        by simp [sampleFromDistribution, t1, t2, t3]⟩
  · intro t1; simp [sampleFromDistribution, t1]
  · intro t2 ps hp hl
    have t1 : config.type ≠ "fixed" := by rw [t2]; decide
    refine ⟨min (ps.getD 0 0) (ps.getD 1 0) +
        r.head * (max (ps.getD 0 0) (ps.getD 1 0) -
          min (ps.getD 0 0) (ps.getD 1 0)), r.tail,
      by simp [sampleFromDistribution, t1, t2, hp, Nat.not_lt.mpr hl], ?_, ?_⟩
    · have h0 := hr.head_nonneg
      nlinarith [min_le_max (a := ps.getD 0 0) (b := ps.getD 1 0)]
    · have h0 := hr.head_nonneg
      have h1 := hr.head_lt_one
      nlinarith [min_le_max (a := ps.getD 0 0) (b := ps.getD 1 0)]
  · intro t2 hshort
    have t1 : config.type ≠ "fixed" := by rw [t2]; decide
    rcases hshort with hp | hps
    · simp [sampleFromDistribution, t1, t2, hp]
    · rcases hp : config.params with _ | ps
      · simp [sampleFromDistribution, t1, t2, hp]
      · simp [sampleFromDistribution, t1, t2, hp, hps ps hp]
  · intro t3 ps hp hne
    have t1 : config.type ≠ "fixed" := by rw [t3]; decide
    have t2 : config.type ≠ "uniform" := by rw [t3]; decide
    have hlen : 0 < ps.length := List.length_pos.mpr hne
    have hjnn : 0 ≤ ⌊r.head * (ps.length : ℚ)⌋ := by
      apply Int.le_floor.mpr
      simpa using mul_nonneg hr.head_nonneg (by positivity)
    have hjlt : ⌊r.head * (ps.length : ℚ)⌋ < (ps.length : ℤ) := by
      apply Int.floor_lt.mpr
      calc r.head * (ps.length : ℚ) < 1 * (ps.length : ℚ) := by
            apply mul_lt_mul_of_pos_right hr.head_lt_one
            exact_mod_cast hlen
        _ = ((ps.length : ℤ) : ℚ) := by push_cast; ring
    have hjn : (⌊r.head * (ps.length : ℚ)⌋).toNat < ps.length := by omega
    refine ⟨ps.getD (⌊r.head * (ps.length : ℚ)⌋).toNat 0, r.tail,
      by simp [sampleFromDistribution, t1, t2, t3, hp,
        Nat.pos_iff_ne_zero.mp hlen], ?_⟩
    rw [List.getD_eq_getElem?_getD, List.getElem?_eq_getElem hjn]
    exact List.getElem_mem hjn
  · intro t3 hshort
    have t1 : config.type ≠ "fixed" := by rw [t3]; decide
    have t2 : config.type ≠ "uniform" := by rw [t3]; decide
    rcases hshort with hp | hp <;>
      simp [sampleFromDistribution, t1, t2, t3, hp]

/-- Uniform spec over [200, 800] used by the sampler witness. -/
def uniformCfg : DistributionSpec :=
  { type := "uniform", value := 500, params := some [200, 800] }

/-- Witness for C8: the uniform branch at a concrete spec and stream
produces a value inside the configured interval, and a concrete unknown
type fails. -/
theorem c8_sampler_behavior_witness :
    (∃ v r2, sampleFromDistribution uniformCfg rZero = .ok (v, r2) ∧
      min ((200 : ℚ)) 800 ≤ v ∧ v ≤ max (200 : ℚ) 800) ∧
    (∃ e, sampleFromDistribution
      { type := "gaussian", value := 0, params := none } rZero =
        .error e) := by
  constructor
  · have h := (c8_sampler_behavior uniformCfg rZero validR_rZero).2.2.1
      rfl [200, 800] rfl (by norm_num)
    simpa [uniformCfg] using h
  · exact ((c8_sampler_behavior
      { type := "gaussian", value := 0, params := none } rZero
      validR_rZero).1.mpr ⟨by decide, by decide, by decide⟩)

/-- The Markov loop emits exactly as many elements as requested. -/
theorem randomLoop_length (sw : ℚ) :
    ∀ (k : ℕ) (prev : Task) (r : Rng),
      ((randomLoop sw prev r k).1).length = k := by
  intro k
  induction k with
  | zero => intro prev r; simp [randomLoop]
  | succ k ih => intro prev r; simp [randomLoop, ih]

/-- The AABB loop emits exactly as many elements as requested. -/
theorem aabbLoop_length :
    ∀ (k : ℕ) (prev : Task) (i : ℕ), (aabbLoop prev i k).length = k := by
  intro k
  induction k with
  | zero => intro prev i; simp [aabbLoop]
  | succ k ih => intro prev i; simp [aabbLoop, ih]

/-- C6 counterexample. At numTrials = 0 the generator returns a sequence of
length 1, not 0: the first element is always seeded before the loop runs,
so the claimed exact length fails for n = 0. -/
theorem c6_counterexample :
    generateTaskSequence 0 "Random" 0 (some Task.mov) rZero =
      .ok ([Task.mov], rZero) ∧ (1 : ℕ) ≠ 0 := by
  exact ⟨rfl, by decide⟩

/-- C6 amended. For every numTrials at least 1, every switch rate, every
start task (given or null), every random stream and both recognized
sequence types, the generator succeeds with a sequence of length exactly
numTrials; at numTrials = 0 it instead returns a single-element sequence. -/
theorem c6_length_from_one (n : ℕ) (seqType : String) (sw : ℚ)
    (st : Option Task) (r : Rng) (hn : 1 ≤ n)
    (ht : seqType = "Random" ∨ seqType = "AABB") :
    ∃ l r2, generateTaskSequence n seqType sw st r = .ok (l, r2) ∧
      l.length = n := by
  rcases ht with rfl | rfl <;> rcases st with _ | t <;>
    refine ⟨_, _, rfl, ?_⟩ <;>
    simp [generateTaskSequence, randomLoop_length, aabbLoop_length] <;>
    omega

/-- Witness for the amended C6 at concrete inputs. -/
theorem c6_length_from_one_witness :
    ∃ l r2, generateTaskSequence 3 "Random" 0 (some Task.mov) rZero =
      .ok (l, r2) ∧ l.length = 3 :=
  c6_length_from_one 3 "Random" 0 (some Task.mov) rZero (by norm_num)
    (Or.inl rfl)

/-- Closed form of the AABB loop: starting at position i (at least 1) with
the pattern value of position i - 1, it emits the pattern values of
positions i, i + 1, and so on. -/
theorem aabbLoop_closed (st : Task) :
    ∀ (k i : ℕ), 1 ≤ i →
      aabbLoop (if (i - 1) / 2 % 2 = 0 then st else switchTask st) i k =
        (List.range k).map
          (fun j => if (i + j) / 2 % 2 = 0 then st else switchTask st) := by
  intro k
  induction k with
  | zero => intro i hi; simp [aabbLoop]
  | succ k ih =>
    intro i hi
    have hstep :
        (if i % 2 = 0 then
          switchTask (if (i - 1) / 2 % 2 = 0 then st else switchTask st)
         else (if (i - 1) / 2 % 2 = 0 then st else switchTask st)) =
        (if i / 2 % 2 = 0 then st else switchTask st) := by
      by_cases h2 : i % 2 = 0
      · by_cases h3 : i / 2 % 2 = 0
        · have h4 : (i - 1) / 2 % 2 = 1 := by omega
          simp [h2, h3, h4]
          cases st <;> rfl
        · have h4 : (i - 1) / 2 % 2 = 0 := by omega
          simp [h2, h3, h4]
      · have h4 : (i - 1) / 2 = i / 2 := by omega
        simp [h2, h4]
    have ih2 := ih (i + 1) (by omega)
    simp only [Nat.add_sub_cancel] at ih2
    conv_lhs => rw [aabbLoop]
    rw [hstep, ih2, List.range_succ_eq_map, List.map_cons, List.map_map]
    have htail :
        List.map (fun j => if (i + 1 + j) / 2 % 2 = 0 then st
          else switchTask st) (List.range k) =
        List.map ((fun j => if (i + j) / 2 % 2 = 0 then st
          else switchTask st) ∘ Nat.succ) (List.range k) :=
      List.map_congr_left (fun a ha => by
        have harith : i + 1 + a = i + (a + 1) := by omega
        simp [harith])
    rw [htail]
    simp

/-- C9. For every numTrials at least 1, any switch rate and any random
stream, the AABB generator returns exactly the deterministic run-length-2
pattern anchored at the given start task: position i holds the start task
when i / 2 is even and the other task when it is odd, and the stream is
not consumed. -/
theorem c9_aabb_pattern (n : ℕ) (sw : ℚ) (st : Task) (r : Rng)
    (hn : 1 ≤ n) :
    generateTaskSequence n "AABB" sw (some st) r =
      .ok ((List.range n).map
        (fun i => if i / 2 % 2 = 0 then st else switchTask st), r) := by
  have hb := aabbLoop_closed st (n - 1) 1 (le_refl 1)
  norm_num at hb
  obtain ⟨m, rfl⟩ : ∃ m, n = m + 1 := ⟨n - 1, by omega⟩
  simp only [Nat.add_sub_cancel] at hb
  have hl : st :: aabbLoop st 1 m =
      (List.range (m + 1)).map
        (fun i => if i / 2 % 2 = 0 then st else switchTask st) := by
    rw [hb, List.range_succ_eq_map, List.map_cons, List.map_map]
    have htail :
        List.map (fun j => if (1 + j) / 2 % 2 = 0 then st
          else switchTask st) (List.range m) =
        List.map ((fun i => if i / 2 % 2 = 0 then st
          else switchTask st) ∘ Nat.succ) (List.range m) :=
      List.map_congr_left (fun a ha => by
        have harith : 1 + a = a + 1 := by omega
        simp [harith])
    rw [htail]
    simp
  simp only [generateTaskSequence]
  rw [if_neg (by decide)]
  simp only [Nat.add_sub_cancel, hl]
  simp

/-- Witness for C9: eight trials starting from mov give the pattern of the
spec example, independent of the stream. -/
theorem c9_aabb_pattern_witness :
    generateTaskSequence 8 "AABB" 0 (some Task.mov) rZero =
      .ok ([Task.mov, Task.mov, Task.or, Task.or,
            Task.mov, Task.mov, Task.or, Task.or], rZero) :=
  (c9_aabb_pattern 8 0 Task.mov rZero (by norm_num)).trans (by rfl)

/-- The occurrence indicator of a list element is at most its count. -/
theorem count_ind_le {α : Type} [DecidableEq α] (l : List α) (i : ℕ)
    (h : i < l.length) (b : α) :
    (if l[i] == b then 1 else 0) ≤ l.count b := by
  split
  · next hbeq =>
    refine List.count_pos_iff.mpr ?_
    have hbe : l[i] = b := by simpa using hbeq
    exact hbe ▸ l.getElem_mem h
  · omega

/-- Swapping two in-range positions never changes an occurrence count. -/
theorem listSwap_count {α : Type} [Inhabited α] [DecidableEq α]
    (l : List α) (i j : ℕ) (hi : i < l.length) (hj : j < l.length) (b : α) :
    (listSwap l i j).count b = l.count b := by
  have hxd : l.getD j default = l[j] := by
    rw [List.getD_eq_getElem?_getD, List.getElem?_eq_getElem hj]; rfl
  have hyd : l.getD i default = l[i] := by
    rw [List.getD_eq_getElem?_getD, List.getElem?_eq_getElem hi]; rfl
  have hj2 : j < (l.set i (l[j])).length := by simpa using hj
  have hle := count_ind_le l i hi b
  have hle2 := count_ind_le l j hj b
  unfold listSwap
  rw [hxd, hyd, List.count_set _ _ _ _ hj2, List.count_set _ _ _ _ hi]
  by_cases hij : i = j
  · subst hij
    rw [List.getElem_set_self hj2]
    omega
  · rw [List.getElem_set_ne hij]
    omega

/-- The Fisher-Yates loop never changes the length. -/
theorem fyLoop_length {α : Type} [Inhabited α] :
    ∀ (k : ℕ) (l : List α) (r : Rng), ((fyLoop l k r).1).length = l.length := by
  intro k
  induction k with
  | zero => intro l r; rfl
  | succ k ih =>
    intro l r
    rw [fyLoop, ih]
    simp [listSwap]

/-- For a valid stream and an in-range starting position, the Fisher-Yates
loop never changes any occurrence count: every iteration swaps two in-range
positions. -/
theorem fyLoop_count {α : Type} [Inhabited α] [DecidableEq α] (b : α) :
    ∀ (k : ℕ) (l : List α) (r : Rng), ValidR r → k < l.length →
      ((fyLoop l k r).1).count b = l.count b := by
  intro k
  induction k with
  | zero => intro l r _ _; rfl
  | succ k ih =>
    intro l r hr hk
    have h0 := hr.head_nonneg
    have h1 := hr.head_lt_one
    have hflt : ⌊r.head * ((k + 2 : ℕ) : ℚ)⌋ < ((k + 2 : ℕ) : ℤ) := by
      apply Int.floor_lt.mpr
      calc r.head * ((k + 2 : ℕ) : ℚ) < 1 * ((k + 2 : ℕ) : ℚ) := by
            apply mul_lt_mul_of_pos_right h1 (by positivity)
        _ = (((k + 2 : ℕ) : ℤ) : ℚ) := by push_cast; ring
    have hj : (⌊r.head * ((k + 2 : ℕ) : ℚ)⌋).toNat < l.length := by omega
    rw [fyLoop,
      ih (listSwap l (k + 1) ((⌊r.head * ((k + 2 : ℕ) : ℚ)⌋).toNat)) r.tail
        hr.tail (by simp only [listSwap, List.length_set]; omega),
      listSwap_count l (k + 1) _ hk hj b]

/-- The assembly loop with a satisfied side condition keeps the assigned
total at most numTrials and emits exactly the remaining count of labels. -/
theorem assembleLoop_spec (n : ℤ) :
    ∀ (conds : List String) (props : List ℚ) (assigned : ℤ),
      assembleOK n conds props assigned = true →
      assigned ≤ n ∧
        (assembleLoop n conds props (some assigned)).length =
          (n - assigned).toNat := by
  intro conds
  induction conds with
  | nil => intro props assigned h; simp [assembleOK] at h
  | cons c cs ih =>
    intro props assigned h
    by_cases hcs : cs.isEmpty
    · rw [assembleOK] at h
      simp only [hcs, if_true, decide_eq_true_eq] at h
      refine ⟨h, ?_⟩
      simp [assembleLoop, hcs]
    · rw [assembleOK] at h
      simp only [hcs, if_false] at h
      rcases hp : props.head? with _ | p <;> rw [hp] at h <;>
        dsimp only at h
      · exact absurd h (by simp)
      by_cases hc : 0 ≤ jsRound ((n : ℚ) * p)
      · rw [if_pos hc] at h
        obtain ⟨hle, hlen⟩ :=
          ih props.tail (assigned + jsRound ((n : ℚ) * p)) h
        refine ⟨by omega, ?_⟩
        rw [assembleLoop]
        simp only [hcs, Bool.false_eq_true, if_false, hp,
          List.length_append, List.length_replicate, hlen]
        omega
      · rw [if_neg hc] at h
        exact absurd h (by simp)

/-- C5 counterexample. With an empty conditions list the generator returns
the empty sequence whatever numTrials is, so the total label count is 0,
not numTrials: the claimed invariant fails for this input. -/
theorem c5_counterexample :
    (generateCongruencySequence 1 [] [] rZero).1.length = 0 ∧ (0 : ℕ) ≠ 1 :=
  ⟨rfl, by decide⟩

/-- C5 amended. Whenever the conditions list is nonempty, every non-last
condition has a proportion entry, every non-last rounded count
round(numTrials * proportion) is nonnegative and their running totals stay
at most numTrials (the assembleOK side condition; proportion lists
covering the conditions, nonnegative and summing to at most 1 satisfy it),
the generated sequence has length exactly numTrials for every valid random
stream, and the shuffle preserves the per-label multiplicities of the
assembled sequence, in which each condition except the last receives its
rounded share and the last absorbs the remainder. A missing non-last
proportion is excluded: there the source count is NaN and the sequence
comes up short. -/
theorem c5_exact_counts (numTrials : ℕ) (conditions : List String)
    (proportions : List ℚ) (r : Rng) (hr : ValidR r)
    (hok : assembleOK (numTrials : ℤ) conditions proportions 0 = true) :
    (generateCongruencySequence numTrials conditions proportions r).1.length
      = numTrials ∧
    ∀ lab : String,
      (generateCongruencySequence numTrials conditions proportions
        r).1.count lab =
      (assembleLoop (numTrials : ℤ) conditions proportions
        (some 0)).count lab := by
  obtain ⟨-, hlen⟩ := assembleLoop_spec (numTrials : ℤ) conditions
    proportions 0 hok
  have hlen2 : (assembleLoop (numTrials : ℤ) conditions
      proportions (some 0)).length = numTrials := by
    rw [hlen]; simp
  constructor
  · show ((fyLoop _ _ _).1).length = _
    rw [fyLoop_length, hlen2]
  · intro lab
    show ((fyLoop _ _ _).1).count lab = _
    rcases Nat.eq_zero_or_pos
      (assembleLoop (numTrials : ℤ) conditions proportions
        (some 0)).length
      with h0 | hpos
    · rw [h0]; rfl
    · exact fyLoop_count lab _ _ r hr (by omega)

/-- Witness for the amended C5 at the spec example: 120 trials over
congruent and incongruent at proportions one half each give exactly 60 of
each label. -/
theorem c5_exact_counts_witness :
    (generateCongruencySequence 120 ["congruent", "incongruent"]
      [1 / 2, 1 / 2] rZero).1.length = 120 ∧
    (generateCongruencySequence 120 ["congruent", "incongruent"]
      [1 / 2, 1 / 2] rZero).1.count "congruent" = 60 ∧
    (generateCongruencySequence 120 ["congruent", "incongruent"]
      [1 / 2, 1 / 2] rZero).1.count "incongruent" = 60 := by
  have hasm : assembleLoop (120 : ℤ) ["congruent", "incongruent"]
      [1 / 2, 1 / 2] (some 0) =
      List.replicate 60 "congruent" ++ List.replicate 60 "incongruent" := by
    norm_num [assembleLoop, jsRound]
    rfl
  have h := c5_exact_counts 120 ["congruent", "incongruent"] [1 / 2, 1 / 2]
    rZero validR_rZero (by norm_num [assembleOK, jsRound])
  refine ⟨h.1, ?_, ?_⟩
  · rw [h.2 "congruent", show ((120 : ℕ) : ℤ) = (120 : ℤ) by norm_num, hasm]
    simp only [List.count_append, List.count_replicate]
    decide
  · rw [h.2 "incongruent", show ((120 : ℕ) : ℤ) = (120 : ℤ) by norm_num, hasm]
    simp only [List.count_append, List.count_replicate]
    decide

/-- The builder never changes the task_2 field of the assembled record. -/
theorem buildTrialParams_task_2 (spec : TrialSpec) :
    (buildTrialParams spec).task_2 = spec.task2 := by
  unfold buildTrialParams
  cases hT : spec.task2 <;>
    simp [recomputeCh2Offsets, silencePathways, assembleParams, hT]

/-- A successful sample leaves the random stream valid: the sampler either
keeps the stream or consumes exactly one draw. -/
theorem sample_valid (config : DistributionSpec) (r : Rng) (v : ℚ)
    (r2 : Rng) (hr : ValidR r)
    (hs : sampleFromDistribution config r = .ok (v, r2)) : ValidR r2 := by
  by_cases t1 : config.type = "fixed"
  · simp [sampleFromDistribution, t1] at hs
    rw [← hs.2]; exact hr
  · by_cases t2 : config.type = "uniform"
    · rcases hp : config.params with _ | ps
      · simp [sampleFromDistribution, t1, t2, hp] at hs
        rw [← hs.2]; exact hr
      · by_cases hl : ps.length < 2
        · simp [sampleFromDistribution, t1, t2, hp, hl] at hs
          rw [← hs.2]; exact hr
        · simp [sampleFromDistribution, t1, t2, hp, hl] at hs
          rw [← hs.2]; exact hr.tail
    · by_cases t3 : config.type = "choice"
      · rcases hp : config.params with _ | ps
        · simp [sampleFromDistribution, t1, t2, t3, hp] at hs
          rw [← hs.2]; exact hr
        · by_cases hl : ps.length = 0
          · simp [sampleFromDistribution, t1, t2, t3, hp, hl] at hs
            rw [← hs.2]; exact hr
          · simp [sampleFromDistribution, t1, t2, t3, hp, hl] at hs
            rw [← hs.2]; exact hr.tail
      · simp [sampleFromDistribution, t1, t2, t3] at hs

/-- A successful sample of a choice spec with nonempty parameters returns a
member of the parameter list. -/
theorem sample_choice_mem (config : DistributionSpec) (r : Rng) (v : ℚ)
    (r2 : Rng) (hr : ValidR r) (ht : config.type = "choice") (ps : List ℚ)
    (hp : config.params = some ps) (hne : ps ≠ [])
    (hs : sampleFromDistribution config r = .ok (v, r2)) : v ∈ ps := by
  have t1 : config.type ≠ "fixed" := by rw [ht]; decide
  have t2 : config.type ≠ "uniform" := by rw [ht]; decide
  have hlen : 0 < ps.length := List.length_pos.mpr hne
  have hjnn : 0 ≤ ⌊r.head * (ps.length : ℚ)⌋ := by
    apply Int.le_floor.mpr
    simpa using mul_nonneg hr.head_nonneg (by positivity)
  have hjlt : ⌊r.head * (ps.length : ℚ)⌋ < (ps.length : ℤ) := by
    apply Int.floor_lt.mpr
    calc r.head * (ps.length : ℚ) < 1 * (ps.length : ℚ) := by
          apply mul_lt_mul_of_pos_right hr.head_lt_one
          exact_mod_cast hlen
      _ = ((ps.length : ℤ) : ℚ) := by push_cast; ring
  have hjn : (⌊r.head * (ps.length : ℚ)⌋).toNat < ps.length := by omega
  have heval : sampleFromDistribution config r =
      .ok (ps.getD (⌊r.head * (ps.length : ℚ)⌋).toNat 0, r.tail) := by
    simp [sampleFromDistribution, t1, t2, ht, hp,
      Nat.pos_iff_ne_zero.mp hlen]
  rw [heval] at hs
  simp at hs
  rw [← hs.1, List.getElem?_eq_getElem hjn]
  simp

/-- Direction assignment consumes one or two draws, keeping validity. -/
theorem assignDirections_valid (task : Task)
    (congruency paradigm rso : String) (r : Rng) (hr : ValidR r) :
    ValidR (assignDirections task congruency paradigm rso r).2 := by
  unfold assignDirections
  split_ifs <;> first | exact hr.tail.tail | exact hr.tail

/-- The Markov loop keeps the random stream valid. -/
theorem randomLoop_valid (sw : ℚ) :
    ∀ (k : ℕ) (prev : Task) (r : Rng), ValidR r →
      ValidR (randomLoop sw prev r k).2 := by
  intro k
  induction k with
  | zero => intro prev r hr; exact hr
  | succ k ih => intro prev r hr; exact ih _ _ hr.tail

/-- A successful task-sequence generation keeps the stream valid. -/
theorem generateTaskSequence_valid (n : ℕ) (seqType : String) (sw : ℚ)
    (st : Option Task) (r : Rng) (l : List Task) (r2 : Rng) (hr : ValidR r)
    (h : generateTaskSequence n seqType sw st r = .ok (l, r2)) :
    ValidR r2 := by
  rcases st with _ | t
  · by_cases h1 : seqType = "Random"
    · simp only [generateTaskSequence, h1, if_true] at h
      simp at h
      rw [← h.2]
      exact randomLoop_valid sw _ _ _ hr.tail
    · by_cases h2 : seqType = "AABB"
      · simp only [generateTaskSequence, h1, h2, if_false, if_true] at h
        simp at h
        rw [← h.2]
        exact hr.tail
      · simp [generateTaskSequence, h1, h2] at h
  · by_cases h1 : seqType = "Random"
    · simp only [generateTaskSequence, h1, if_true] at h
      simp at h
      rw [← h.2]
      exact randomLoop_valid sw _ _ _ hr
    · by_cases h2 : seqType = "AABB"
      · simp only [generateTaskSequence, h1, h2, if_false, if_true] at h
        simp at h
        rw [← h.2]
        exact hr
      · simp [generateTaskSequence, h1, h2] at h

/-- The Fisher-Yates loop keeps the random stream valid. -/
theorem fyLoop_valid {α : Type} [Inhabited α] :
    ∀ (k : ℕ) (l : List α) (r : Rng), ValidR r →
      ValidR (fyLoop l k r).2 := by
  intro k
  induction k with
  | zero => intro l r hr; exact hr
  | succ k ih => intro l r hr; exact ih _ _ hr.tail

/-- Invariant of the per-trial loop: in a dual-task block every trial has
task2 equal to the complement of its task in both records and an SOA drawn
from the choice parameter set whenever the SOA spec is a nonempty choice;
in any other paradigm task2 is null in both records and no SOA is
recorded. -/
theorem trialsLoop_invariant (cfg : BlockConfig) (taskSeq : List Task)
    (transitions congSeq : List String) :
    ∀ (k i : ℕ) (r : Rng) (trials : List Trial) (r2 : Rng),
      ValidR r →
      trialsLoop cfg taskSeq transitions congSeq i k r = .ok (trials, r2) →
      ∀ t ∈ trials,
        (cfg.paradigm = "dual-task" →
          t.meta.task2 = some (switchTask t.meta.task) ∧
          t.seParams.task_2 = some (switchTask t.meta.task) ∧
          (∀ ps, cfg.soa.type = "choice" → cfg.soa.params = some ps →
            ps ≠ [] → ∃ s, t.meta.soa = some s ∧ s ∈ ps)) ∧
        (cfg.paradigm ≠ "dual-task" →
          t.meta.task2 = none ∧ t.seParams.task_2 = none ∧
          t.meta.soa = none) := by
  intro k
  induction k with
  | zero =>
    intro i r trials r2 hr h t ht
    rw [trialsLoop] at h
    simp at h
    rw [h.1] at ht
    simp at ht
  | succ k ih =>
    intro i r trials r2 hr h
    rw [trialsLoop] at h
    rcases hiti : sampleFromDistribution cfg.iti r with e | ⟨iti, r1⟩ <;>
      rw [hiti] at h <;> dsimp only at h
    · simp at h
    have hr1 : ValidR r1 := sample_valid cfg.iti r iti r1 hr hiti
    by_cases hd : cfg.paradigm = "dual-task"
    · simp only [if_pos hd] at h
      rcases hsoa : sampleFromDistribution cfg.soa r1 with e | ⟨sv, rs⟩ <;>
        rw [hsoa] at h <;> dsimp only at h
      · simp at h
      have hrs : ValidR rs := sample_valid cfg.soa r1 sv rs hr1 hsoa
      rcases hrest : trialsLoop cfg taskSeq transitions congSeq (i + 1) k
          (assignDirections (taskSeq.getD i Task.mov) (congSeq.getD i "")
            cfg.paradigm cfg.rso rs).2 with e | ⟨rest, r4⟩ <;>
        rw [hrest] at h <;> dsimp only at h
      · simp at h
      have hr3 : ValidR (assignDirections (taskSeq.getD i Task.mov)
          (congSeq.getD i "") cfg.paradigm cfg.rso rs).2 :=
        assignDirections_valid _ _ _ _ rs hrs
      simp only [Except.ok.injEq, Prod.mk.injEq] at h
      intro t ht
      rw [← h.1] at ht
      rcases List.mem_cons.mp ht with heq | htail
      · subst heq
        refine ⟨fun _ => ⟨?_, ?_, ?_⟩, fun hnd => absurd hd hnd⟩
        · simp [hd]
        · simp [buildTrialParams_task_2, hd]
        · intro ps hty hps hne
          refine ⟨sv, ?_, sample_choice_mem cfg.soa r1 sv rs hr1 hty ps
            hps hne hsoa⟩
          simp [hd]
      · exact ih (i + 1) _ rest r4 hr3 hrest t htail
    · simp only [if_neg hd] at h
      rcases hrest : trialsLoop cfg taskSeq transitions congSeq (i + 1) k
          (assignDirections (taskSeq.getD i Task.mov) (congSeq.getD i "")
            cfg.paradigm cfg.rso r1).2 with e | ⟨rest, r4⟩ <;>
        rw [hrest] at h <;> dsimp only at h
      · simp at h
      have hr3 : ValidR (assignDirections (taskSeq.getD i Task.mov)
          (congSeq.getD i "") cfg.paradigm cfg.rso r1).2 :=
        assignDirections_valid _ _ _ _ r1 hr1
      simp only [Except.ok.injEq, Prod.mk.injEq] at h
      intro t ht
      rw [← h.1] at ht
      rcases List.mem_cons.mp ht with heq | htail
      · subst heq
        refine ⟨fun hdd => absurd hdd hd, fun _ => ⟨?_, ?_, ?_⟩⟩
        · simp [hd]
        · simp [buildTrialParams_task_2, hd]
        · simp [hd]
      · exact ih (i + 1) _ rest r4 hr3 hrest t htail

/-- C7. For every block configuration, trial count and valid random stream
on which generateBlockTrials succeeds: in a dual-task block every trial has
task2 equal to the paradigm-complement of its task1, both in the metadata
and in the presentation parameters, and whenever the configured SOA
distribution is a choice with nonempty parameters every emitted SOA value
belongs to that parameter set; in a single-task or mixed block every trial
has null task2 in both records and a null SOA (none is sampled). -/
theorem c7_block_task2_soa (cfg : BlockConfig) (n : ℕ) (r : Rng)
    (trials : List Trial) (hr : ValidR r)
    (hok : generateBlockTrials cfg n r = .ok trials) :
    ∀ t ∈ trials,
      (cfg.paradigm = "dual-task" →
        t.meta.task2 = some (switchTask t.meta.task) ∧
        t.seParams.task_2 = some (switchTask t.meta.task) ∧
        (∀ ps, cfg.soa.type = "choice" → cfg.soa.params = some ps →
          ps ≠ [] → ∃ s, t.meta.soa = some s ∧ s ∈ ps)) ∧
      (cfg.paradigm ≠ "dual-task" →
        t.meta.task2 = none ∧ t.seParams.task_2 = none ∧
        t.meta.soa = none) := by
  unfold generateBlockTrials at hok
  dsimp only at hok
  rcases hts : generateTaskSequence n cfg.sequenceType cfg.switchRate
      (if cfg.paradigm = "dual-task" then cfg.task1 else cfg.startTask) r
      with e | ⟨taskSequence, r1⟩ <;> rw [hts] at hok
  · simp at hok
  have hr1 : ValidR r1 := generateTaskSequence_valid n cfg.sequenceType
    cfg.switchRate _ r taskSequence r1 hr hts
  dsimp only at hok
  rcases htl : trialsLoop cfg taskSequence
      (classifyTransitions taskSequence)
      (generateCongruencySequence n cfg.congruency.conditions
        cfg.congruency.proportions r1).1 0 n
      (generateCongruencySequence n cfg.congruency.conditions
        cfg.congruency.proportions r1).2 with e | ⟨trials2, r3⟩ <;>
    rw [htl] at hok
  · simp at hok
  dsimp only at hok
  have hr2 : ValidR (generateCongruencySequence n
      cfg.congruency.conditions cfg.congruency.proportions r1).2 :=
    fyLoop_valid _ _ _ hr1
  simp only [Except.ok.injEq] at hok
  rw [← hok]
  exact trialsLoop_invariant cfg taskSequence
    (classifyTransitions taskSequence) _ n 0 _ trials2 r3 hr2 htl

/-- Concrete PRP block configuration used by the C7 witness, following the
session demo: dual-task, SOA drawn from a choice set. -/
def c7cfg : BlockConfig :=
  { blockId := "hirsch_prp", blockType := "prp", paradigm := "dual-task",
    task1 := some .mov, task2 := some .or, sequenceType := "Random",
    switchRate := 50, startTask := none, csi := 200,
    stimulusDuration := 300, responseWindow := 2000, rso := "identical",
    coherence := { ch1_task := 1, ch1_distractor := 0,
                   ch2_task := 1, ch2_distractor := 0 },
    congruency := { conditions := ["univalent"], proportions := [1] },
    iti := { type := "fixed", value := 500, params := none },
    soa := { type := "choice", value := 100, params := some [100, 600] } }

/-- The trials of the witness block, generated from the zero stream. -/
def c7trials : List Trial :=
  (generateBlockTrials c7cfg 1 rZero).toOption.getD []

/-- Placeholder trial used only as a lookup default. -/
def dummyTrial : Trial :=
  { seParams := buildTrialParams
      { task1 := .mov, task2 := none, csi := 0, dur_ch1 := 0, dur_ch2 := 0,
        soa := 0, responseWindow := 0,
        coherence := { ch1_task := 0, ch1_distractor := 0,
                       ch2_task := 0, ch2_distractor := 0 },
        dir := { ch1_task := some 0, ch1_distractor := some 0,
                 ch2_task := some 0, ch2_distractor := some 0 } },
    meta := { trialNumber := 0, blockId := "", blockType := "",
              paradigm := "", task := .mov, task2 := none,
              transitionType := "", congruency := "",
              previousCongruency := none, iti := 0, soa := none,
              primaryDirection := 0, distractorDirection := none,
              ch2Direction := none } }

/-- The single trial of the witness block. -/
def c7trial : Trial := c7trials.getD 0 dummyTrial

/-- Witness for C7: at a concrete dual-task block with one trial and the
zero stream, the generated trial carries the complement task2 in both
records and an SOA from the configured choice set. -/
theorem c7_block_task2_soa_witness :
    c7trial.meta.task2 = some (switchTask c7trial.meta.task) ∧
    c7trial.seParams.task_2 = some (switchTask c7trial.meta.task) ∧
    c7trial.meta.soa ≠ none ∧
    c7trial.meta.soa.getD 0 ∈ ([100, 600] : List ℚ) := by
  have hmem : c7trial ∈ c7trials := by
    rw [show c7trials = [c7trial] from rfl]
    exact List.mem_singleton.mpr rfl
  have h := c7_block_task2_soa c7cfg 1 rZero c7trials validR_rZero
    (by rfl) c7trial hmem
  have hd := h.1 rfl
  obtain ⟨s, hs1, hs2⟩ := hd.2.2 [100, 600] rfl rfl (by decide)
  refine ⟨hd.1, hd.2.1, ?_, ?_⟩
  · rw [hs1]; simp
  · rw [hs1]; simpa using hs2

end Engine
